import Mathlib

/-!
Verification of the `@antv/expr` secure expression evaluator.

This file gives a shallow embedding, in Lean 4, of the library's active
pipeline (`src/index.ts` → `tokenize` in `src/tokenizer.ts` → `parse` in
`src/parser.ts` → `evaluateAst` in `src/interpreter.ts`), together with
theorems settling a list of behavioural claims about it.

Modelling conventions:
- JavaScript numbers (IEEE doubles) are modelled as exact rationals
  (`JSNum`, an integer numerator with a positive natural denominator,
  not necessarily reduced), plus explicit `nan` and signed-infinity
  values.  Negative zero is not modelled.  All decimal literals the
  tokenizer can produce are exact in this model.
- JavaScript objects are modelled as association lists of string keys.
  Arrays behave, through the interpreter's single property-access path
  `(object)[property]`, like objects keyed by index strings plus
  `length`, so keyed objects model every container the claims touch.
  Reference identity (and hence `===` on two objects) is not modelled:
  object-to-object strict equality is conservatively `false`.
- Host functions registered in the function registry are modelled as
  Lean functions from argument lists to `Except EvalErr Value`; the
  global registry is passed explicitly as a parameter.
- Exceptions are modelled with `Except`; each thrown `ExpressionError`
  message template in the source becomes one error constructor.
-/

/-! ## Numbers

`JSNum` is an unreduced fraction: numerator `n : Int` over denominator
`d : Nat`.  Every constructor below keeps `d` positive.  Value equality
is by cross multiplication (`qEq`), not by structural equality. -/

structure JSNum where
  n : Int
  d : Nat
  deriving DecidableEq, Repr

def qInt (i : Int) : JSNum := ⟨i, 1⟩

def qAdd (a b : JSNum) : JSNum := ⟨a.n * b.d + b.n * a.d, a.d * b.d⟩

def qNeg (a : JSNum) : JSNum := ⟨-a.n, a.d⟩

def qMul (a b : JSNum) : JSNum := ⟨a.n * b.n, a.d * b.d⟩

/-- Division of finite values; the caller rules out a zero divisor.
The denominator stays a positive natural: the divisor's sign moves to
the numerator. -/
def qDiv (a b : JSNum) : JSNum :=
  if b.n < 0 then ⟨-(a.n * b.d), a.d * b.n.natAbs⟩
  else ⟨a.n * b.d, a.d * b.n.natAbs⟩

def qIsZero (a : JSNum) : Bool := a.n == 0

def qIsNeg (a : JSNum) : Bool := a.n < 0

/-- Value equality of fractions by cross multiplication. -/
def qEq (a b : JSNum) : Bool := a.n * b.d == b.n * a.d

/-- Value order of fractions by cross multiplication (denominators are
positive). -/
def qLt (a b : JSNum) : Bool := a.n * b.d < b.n * a.d

/-- Truncation toward zero, as JavaScript's implicit truncation in `%`
does (`Int.tdiv` is T-division). -/
def qTrunc (a : JSNum) : Int := Int.tdiv a.n a.d

/-- JavaScript remainder `a % b` for finite nonzero `b`: result has the
sign of the dividend, `a - b * trunc(a / b)`. -/
def qMod (a b : JSNum) : JSNum :=
  qAdd a (qNeg (qMul b (qInt (qTrunc (qDiv a b)))))

/-- Decimal digits of the fractional part of `rem / d`, produced by long
division.  The fuel bounds the expansion; for the denominators the
tokenizer produces (powers of ten) the expansion is exact and finite. -/
def fracDigits (rem d : Nat) : Nat → String
  | 0 => ""
  | fuel+1 =>
    if rem == 0 then ""
    else Nat.repr (rem * 10 / d) ++ fracDigits (rem * 10 % d) d fuel

/-- JavaScript `String(number)` for finite values, in the exact-rational
model: sign, integer part, then the exact decimal expansion of the
fractional part. -/
def numToString (q : JSNum) : String :=
  if q.n == 0 then "0"
  else
    let sgn := if q.n < 0 then "-" else ""
    let a := q.n.natAbs
    let ip := a / q.d
    let rem := a % q.d
    if rem == 0 then sgn ++ Nat.repr ip
    else sgn ++ Nat.repr ip ++ "." ++ fracDigits rem q.d 100

/-! ## Values -/

/-- Runtime values.  `nan` and `inf` are kept apart from finite numbers
so that JavaScript's `NaN`/`Infinity` propagation is explicit.  `obj` is
an association list of own properties (first match wins on duplicate
keys, mirroring lookup order after object spread). -/
inductive Value where
  | num (q : JSNum)
  | nan
  | inf (neg : Bool)
  | str (s : String)
  | bool (b : Bool)
  | null
  | undefined
  | obj (fields : List (String × Value))
  deriving Repr

/-- JavaScript whitespace as used by `/\s/` (ASCII subset; the claims
never exercise the Unicode space classes). -/
def isJsWhitespace (c : Char) : Bool :=
  c == ' ' || c == '\t' || c == '\n' || c == '\r' ||
  c == Char.ofNat 11 || c == Char.ofNat 12

/-- Word characters of `/\w/` and of `/[a-zA-Z0-9_]/`. -/
def isIdentChar (c : Char) : Bool := c.isAlpha || c.isDigit || c == '_'

def digitsToNat (cs : List Char) : Nat :=
  cs.foldl (fun acc c => acc * 10 + (c.toNat - 48)) 0

/-- An optionally-dotted digit string, the unsigned core of JavaScript's
string-to-number coercion (`Number("5.")` is `5`, `Number(".5")` is
`0.5`, a lone `"."` or any stray character is `NaN` = `none`).
Exponent and hexadecimal forms are not modelled; nothing in the library
pipeline or the claims produces them. -/
def parseDecimalChars (cs : List Char) : Option JSNum :=
  let p := cs.span Char.isDigit
  match p.2 with
  | [] => if p.1.isEmpty then none else some ⟨digitsToNat p.1, 1⟩
  | c :: rest2 =>
    if c == '.' then
      let f := rest2.span Char.isDigit
      if f.2.isEmpty && !(p.1.isEmpty && f.1.isEmpty) then
        some ⟨digitsToNat p.1 * (10 ^ f.1.length) + digitsToNat f.1,
              10 ^ f.1.length⟩
      else none
    else none

def parseUnsignedNumber (cs : List Char) : Value :=
  if cs == "Infinity".toList then .inf false
  else
    match parseDecimalChars cs with
    | some q => .num q
    | none => .nan

/-- JavaScript `Number(string)`: trim whitespace, empty means `0`, an
optional sign, then a decimal literal; anything else is `NaN`. -/
def strToNumber (s : String) : Value :=
  let cs := (((s.toList.dropWhile isJsWhitespace).reverse.dropWhile
      isJsWhitespace).reverse)
  match cs with
  | [] => .num (qInt 0)
  | c :: rest =>
    if c == '-' then
      match parseUnsignedNumber rest with
      | .num q => .num (qNeg q)
      | .inf _ => .inf true
      | _ => .nan
    else if c == '+' then parseUnsignedNumber rest
    else parseUnsignedNumber cs

/-- `ToPrimitive` for this value model: plain objects convert (via their
default `toString`) to `"[object Object]"`; every other value is
already primitive. -/
def toPrimitive (v : Value) : Value :=
  match v with
  | .obj _ => .str "[object Object]"
  | x => x

/-- JavaScript `String(value)`. -/
def jsToString (v : Value) : String :=
  match v with
  | .num q => numToString q
  | .nan => "NaN"
  | .inf neg => if neg then "-Infinity" else "Infinity"
  | .str s => s
  | .bool b => if b then "true" else "false"
  | .null => "null"
  | .undefined => "undefined"
  | .obj _ => "[object Object]"

/-- JavaScript `ToNumber`: the result is always one of `num`, `inf`,
`nan`. -/
def toNumberX (v : Value) : Value :=
  match v with
  | .num q => .num q
  | .nan => .nan
  | .inf neg => .inf neg
  | .str s => strToNumber s
  | .bool b => .num (qInt (if b then 1 else 0))
  | .null => .num (qInt 0)
  | .undefined => .nan
  | .obj _ => .nan

/-- JavaScript truthiness: `false`, `0`, `NaN`, the empty string, `null`
and `undefined` are falsy; everything else (objects included) is
truthy. -/
def truthy (v : Value) : Bool :=
  match v with
  | .num q => !(q.n == 0)
  | .nan => false
  | .inf _ => true
  | .str s => !(s == "")
  | .bool b => b
  | .null => false
  | .undefined => false
  | .obj _ => true

/-! Numeric operations on the image of `toNumberX` (`num`/`inf`/`nan`);
any other input (impossible for the interpreter) falls to `nan`. -/

def numNeg (v : Value) : Value :=
  match v with
  | .num q => .num (qNeg q)
  | .inf neg => .inf (!neg)
  | _ => .nan

def numAdd (l r : Value) : Value :=
  match l, r with
  | .num a, .num b => .num (qAdd a b)
  | .inf a, .inf b => if a == b then .inf a else .nan
  | .inf a, .num _ => .inf a
  | .num _, .inf b => .inf b
  | _, _ => .nan

def numSub (l r : Value) : Value := numAdd l (numNeg r)

def numMul (l r : Value) : Value :=
  match l, r with
  | .num a, .num b => .num (qMul a b)
  | .inf a, .inf b => .inf (a != b)
  | .inf a, .num b => if qIsZero b then .nan else .inf (a != qIsNeg b)
  | .num a, .inf b => if qIsZero a then .nan else .inf (b != qIsNeg a)
  | _, _ => .nan

def numDiv (l r : Value) : Value :=
  match l, r with
  | .num a, .num b =>
    if qIsZero b then
      if qIsZero a then .nan else .inf (qIsNeg a)
    else .num (qDiv a b)
  | .inf a, .num b => .inf (a != qIsNeg b)
  | .num _, .inf _ => .num (qInt 0)
  | .inf _, .inf _ => .nan
  | _, _ => .nan

def numMod (l r : Value) : Value :=
  match l, r with
  | .num a, .num b => if qIsZero b then .nan else .num (qMod a b)
  | .num a, .inf _ => .num a
  | .inf _, _ => .nan
  | _, _ => .nan

/-- JavaScript `+`: after `ToPrimitive`, if either side is a string the
result is the concatenation of both sides' string forms, otherwise both
sides are coerced to numbers and added. -/
def jsAdd (l r : Value) : Value :=
  let lp := toPrimitive l
  let rp := toPrimitive r
  match lp, rp with
  | .str a, _ => .str (a ++ jsToString rp)
  | _, .str b => .str (jsToString lp ++ b)
  | _, _ => numAdd (toNumberX lp) (toNumberX rp)

/-- Strict lexicographic order on strings by code point (JavaScript
compares UTF-16 code units; the claims stay in the ASCII range where
the two agree). -/
def charListLt : List Char → List Char → Bool
  | [], [] => false
  | [], _ :: _ => true
  | _ :: _, [] => false
  | a :: as_, b :: bs =>
    if a.toNat < b.toNat then true
    else if b.toNat < a.toNat then false
    else charListLt as_ bs

/-- The abstract relational comparison: `none` when `NaN` is involved
(JavaScript's "undefined" comparison outcome), otherwise whether the
left operand is strictly less. -/
def jsLessCore (l r : Value) : Option Bool :=
  match toPrimitive l, toPrimitive r with
  | .str a, .str b => some (charListLt a.toList b.toList)
  | lp, rp =>
    match toNumberX lp, toNumberX rp with
    | .nan, _ => none
    | _, .nan => none
    | .inf a, .inf b => some (a && !b)
    | .inf a, _ => some a
    | _, .inf b => some (!b)
    | .num a, .num b => some (qLt a b)
    | _, _ => none

/-- JavaScript `===`.  Two objects are reference-equal only when they
are the same heap object; the heap is not modelled, so object-object
comparison is conservatively `false` (no claim compares objects). -/
def jsStrictEq (l r : Value) : Bool :=
  match l, r with
  | .num a, .num b => qEq a b
  | .inf a, .inf b => a == b
  | .str a, .str b => a == b
  | .bool a, .bool b => a == b
  | .null, .null => true
  | .undefined, .undefined => true
  | _, _ => false

/-! ## Tokenizer (`src/tokenizer.ts`, `tokenize`) -/

inductive TokenType where
  | STRING
  | NUMBER
  | BOOLEAN
  | NULL
  | IDENTIFIER
  | OPERATOR
  | FUNCTION
  | DOT
  | BRACKET_LEFT
  | BRACKET_RIGHT
  | PAREN_LEFT
  | PAREN_RIGHT
  | COMMA
  | QUESTION
  | COLON
  | DOLLAR
  deriving DecidableEq, Repr

structure Token where
  type : TokenType
  value : String
  deriving DecidableEq, Repr

/-- Lexical failures (`ExpressionError`s thrown by the tokenizer).
`outOfFuel` is a modelling artefact of the fueled main loop and is
unreachable at the fuel `tokenize` supplies, since every iteration
consumes at least one character. -/
inductive TokErr where
  | unterminatedString
  | unknownOperator
  | unexpectedCharacter (c : Char)
  | outOfFuel
  deriving DecidableEq, Repr

def quoteChar : Char := Char.ofNat 34

def squoteChar : Char := Char.ofNat 39

def backslashChar : Char := Char.ofNat 92

/-- `readString`: the characters between the quotes, a backslash taking
the following character verbatim.  Running out of input (with or
without a dangling backslash) is an unterminated string. -/
def readStringChars (quote : Char) : List Char → Except TokErr (List Char × List Char)
  | [] => .error .unterminatedString
  | c :: rest =>
    if c == quote then .ok ([], rest)
    else if c == backslashChar then
      match rest with
      | [] => .error .unterminatedString
      | d :: rest2 =>
        match readStringChars quote rest2 with
        | .ok p => .ok (d :: p.1, p.2)
        | .error e => .error e
    else
      match readStringChars quote rest with
      | .ok p => .ok (c :: p.1, p.2)
      | .error e => .error e

/-- The characters `readNumber` consumes: digits, dots and minus signs,
without further structure (so `"-5"`, `"5."` and also `"1-2"` form one
NUMBER token; `Number()` later decides what they mean). -/
def isNumberChar (c : Char) : Bool := c.isDigit || c == '.' || c == '-'

/-- `isOperatorStart`: `/[+\-*\/%!&|=<>]/`. -/
def isOperatorStart (c : Char) : Bool :=
  c == '+' || c == '-' || c == '*' || c == '/' || c == '%' ||
  c == '!' || c == '&' || c == '|' || c == '=' || c == '<' || c == '>'

/-- The operator table, longest match first, exactly as in the source. -/
def operatorStrings : List String :=
  ["===", "!==", "&&", "||", ">=", "<=", ">", "<", "+", "-", "*", "/", "%", "!"]

/-- `readOperator`: first table entry that prefixes the input. -/
def tryOperators (cs : List Char) : List String → Option (Token × List Char)
  | [] => none
  | op :: rest =>
    if op.toList.isPrefixOf cs then some (⟨.OPERATOR, op⟩, cs.drop op.toList.length)
    else tryOperators cs rest

/-- `readIdentifier` keyword classification. -/
def classifyWord (w : String) : Token :=
  if w == "true" || w == "false" then ⟨.BOOLEAN, w⟩
  else if w == "null" then ⟨.NULL, w⟩
  else ⟨.IDENTIFIER, w⟩

def withToken (t : Token) : Except TokErr (List Token) → Except TokErr (List Token)
  | .ok ts => .ok (t :: ts)
  | .error e => .error e

/-- `input[pos + 1]` is a digit (out of range reads `undefined`, which
is not a digit). -/
def nextIsDigit : List Char → Bool
  | d :: _ => d.isDigit
  | [] => false

/-- The tokenizer's main character loop.  Each step consumes at least
one character, so fuel `length + 1` always suffices. -/
def tokenizeLoop : Nat → List Char → Except TokErr (List Token)
  | 0, _ => .error .outOfFuel
  | _+1, [] => .ok []
  | fuel+1, c :: cs =>
    if isJsWhitespace c then tokenizeLoop fuel cs
    else if c == quoteChar || c == squoteChar then
      match readStringChars c cs with
      | .error e => .error e
      | .ok p => withToken ⟨.STRING, String.mk p.1⟩ (tokenizeLoop fuel p.2)
    else if c.isDigit || (c == '-' && nextIsDigit cs) then
      let p := (c :: cs).span isNumberChar
      withToken ⟨.NUMBER, String.mk p.1⟩ (tokenizeLoop fuel p.2)
    else if c == '@' then
      let p := cs.span (fun d => d.isAlpha || d == '_')
      withToken ⟨.FUNCTION, String.mk p.1⟩ (tokenizeLoop fuel p.2)
    else if c.isAlpha || c == '_' then
      let p := (c :: cs).span isIdentChar
      withToken (classifyWord (String.mk p.1)) (tokenizeLoop fuel p.2)
    else if isOperatorStart c then
      match tryOperators (c :: cs) operatorStrings with
      | some (t, rest) => withToken t (tokenizeLoop fuel rest)
      | none => .error .unknownOperator
    else if c == '.' then withToken ⟨.DOT, "."⟩ (tokenizeLoop fuel cs)
    else if c == '[' then withToken ⟨.BRACKET_LEFT, "["⟩ (tokenizeLoop fuel cs)
    else if c == ']' then withToken ⟨.BRACKET_RIGHT, "]"⟩ (tokenizeLoop fuel cs)
    else if c == '(' then withToken ⟨.PAREN_LEFT, "("⟩ (tokenizeLoop fuel cs)
    else if c == ')' then withToken ⟨.PAREN_RIGHT, ")"⟩ (tokenizeLoop fuel cs)
    else if c == ',' then withToken ⟨.COMMA, ","⟩ (tokenizeLoop fuel cs)
    else if c == '?' then withToken ⟨.QUESTION, "?"⟩ (tokenizeLoop fuel cs)
    else if c == ':' then withToken ⟨.COLON, ":"⟩ (tokenizeLoop fuel cs)
    else if c == '$' then withToken ⟨.DOLLAR, "$"⟩ (tokenizeLoop fuel cs)
    else .error (.unexpectedCharacter c)

/-- `tokenize(expr)`. -/
def tokenize (expr : String) : Except TokErr (List Token) :=
  tokenizeLoop (expr.toList.length + 1) expr.toList

example : tokenize "a-5" =
    .ok [⟨.IDENTIFIER, "a"⟩, ⟨.NUMBER, "-5"⟩] := rfl
example : tokenize "a - -5" =
    .ok [⟨.IDENTIFIER, "a"⟩, ⟨.OPERATOR, "-"⟩, ⟨.NUMBER, "-5"⟩] := rfl
example : tokenize "2 + 3 * 4" =
    .ok [⟨.NUMBER, "2"⟩, ⟨.OPERATOR, "+"⟩, ⟨.NUMBER, "3"⟩,
         ⟨.OPERATOR, "*"⟩, ⟨.NUMBER, "4"⟩] := rfl
example : tokenize "false && @boom()" =
    .ok [⟨.BOOLEAN, "false"⟩, ⟨.OPERATOR, "&&"⟩, ⟨.FUNCTION, "boom"⟩,
         ⟨.PAREN_LEFT, "("⟩, ⟨.PAREN_RIGHT, ")"⟩] := rfl

/-! ## AST (`src/parser.ts` node types)

`CallExpression` arguments use the mutually-inductive `ExprList` (a
copy of `List Expression`) so that the evaluator can be defined by
mutual structural recursion. -/

mutual
inductive Expression where
  | literal (value : Value) (raw : String)
  | identifier (name : String)
  | member (object : Expression) (property : Expression) (computed : Bool)
  | call (callee : String) (args : ExprList)
  | binary (op : String) (left : Expression) (right : Expression)
  | unary (op : String) (argument : Expression) (pfx : Bool)
  | conditional (test : Expression) (consequent : Expression) (alternate : Expression)
inductive ExprList where
  | nil
  | cons (head : Expression) (tail : ExprList)
end

/-- The `Program` root node. -/
structure Program where
  body : Expression

def toExprList : List Expression → ExprList
  | [] => .nil
  | e :: es => .cons e (toExprList es)

/-! ## Parser (`src/parser.ts`, `parse`) -/

/-- Syntactic failures (`ExpressionError`s thrown by the parser; the
source also records a position and token, which the claims do not
touch).  `outOfFuel` is a modelling artefact of the fueled recursion,
unreachable at the fuel `parse` supplies. -/
inductive ParseErr where
  | expectedPropertyName
  | expectedClosingBracket
  | expectedOpeningParen
  | expectedCommaBetweenArgs
  | expectedClosingParen
  | expectedColonInConditional
  | unexpectedEndOfInput
  | unexpectedToken (t : TokenType) (v : String)
  | outOfFuel
  deriving DecidableEq, Repr

/-- `getOperatorPrecedence`.  An OPERATOR token with a value outside the
switch falls through past the DOT/BRACKET and QUESTION tests to `-1`,
exactly as in the source. -/
def getOperatorPrecedence (t : Token) : Int :=
  if t.type == .OPERATOR then
    match t.value with
    | "||" => 2
    | "&&" => 3
    | "===" => 4
    | "!==" => 4
    | ">" => 5
    | ">=" => 5
    | "<" => 5
    | "<=" => 5
    | "+" => 6
    | "-" => 6
    | "*" => 7
    | "/" => 7
    | "%" => 7
    | "!" => 8
    | _ => -1
  else if t.type == .DOT || t.type == .BRACKET_LEFT then 9
  else if t.type == .QUESTION then 1
  else -1

/-- `match(type)`: the token at the position exists and has the type. -/
def matchesType (tokens : List Token) (i : Nat) (ty : TokenType) : Bool :=
  match tokens.get? i with
  | some t => t.type == ty
  | none => false

/-- The literal's `raw` field for STRING tokens: the value re-wrapped in
double quotes. -/
def quotedRaw (v : String) : String :=
  String.mk [quoteChar] ++ v ++ String.mk [quoteChar]

/-- The parser's mutually recursive procedures, fused into one fueled
function.  Each constructor of `ParseTask` is one procedure of the
source (with its loop state made explicit); every recursive call burns
one unit of fuel.  All procedures return the parsed expression together
with the next token position. -/
inductive ParseTask where
  | expr (cur : Nat) (prec : Int)
  | exprLoop (left : Expression) (cur : Nat) (prec : Int)
  | primary (cur : Nat)
  | memberTail (object : Expression) (cur : Nat)
  | callStart (cur : Nat)
  | callArgs (name : String) (acc : List Expression) (cur : Nat)

def parseStep (tokens : List Token) : Nat → ParseTask → Except ParseErr (Expression × Nat)
  | 0, _ => .error .outOfFuel
  | fuel+1, task =>
    match task with
    | .expr cur prec =>
      match parseStep tokens fuel (.primary cur) with
      | .error e => .error e
      | .ok (left, cur2) => parseStep tokens fuel (.exprLoop left cur2 prec)
    | .exprLoop left cur prec =>
      match tokens.get? cur with
      | none => .ok (left, cur)
      | some token =>
        let nextPrec := getOperatorPrecedence token
        if nextPrec ≤ prec then .ok (left, cur)
        else if token.type == .QUESTION then
          match parseStep tokens fuel (.expr (cur+1) 0) with
          | .error e => .error e
          | .ok (consequent, cur2) =>
            if matchesType tokens cur2 .COLON then
              match parseStep tokens fuel (.expr (cur2+1) 0) with
              | .error e => .error e
              | .ok (alternate, cur3) =>
                parseStep tokens fuel
                  (.exprLoop (.conditional left consequent alternate) cur3 prec)
            else .error .expectedColonInConditional
        else if token.type == .OPERATOR then
          match parseStep tokens fuel (.expr (cur+1) nextPrec) with
          | .error e => .error e
          | .ok (right, cur2) =>
            parseStep tokens fuel (.exprLoop (.binary token.value left right) cur2 prec)
        else if token.type == .DOT || token.type == .BRACKET_LEFT then
          match parseStep tokens fuel (.memberTail left cur) with
          | .error e => .error e
          | .ok (m, cur2) => parseStep tokens fuel (.exprLoop m cur2 prec)
        else .ok (left, cur)
    | .primary cur =>
      match tokens.get? cur with
      | none => .error .unexpectedEndOfInput
      | some token =>
        if token.type == .OPERATOR && (token.value == "!" || token.value == "-") then
          match parseStep tokens fuel (.primary (cur+1)) with
          | .error e => .error e
          | .ok (arg, cur2) => .ok (.unary token.value arg true, cur2)
        else
          match token.type with
          | .NUMBER => .ok (.literal (strToNumber token.value) token.value, cur+1)
          | .STRING => .ok (.literal (.str token.value) (quotedRaw token.value), cur+1)
          | .BOOLEAN => .ok (.literal (.bool (token.value == "true")) token.value, cur+1)
          | .NULL => .ok (.literal .null "null", cur+1)
          | .IDENTIFIER => .ok (.identifier token.value, cur+1)
          | .FUNCTION => parseStep tokens fuel (.callStart cur)
          | .PAREN_LEFT =>
            match parseStep tokens fuel (.expr (cur+1) 0) with
            | .error e => .error e
            | .ok (e, cur2) =>
              if matchesType tokens cur2 .PAREN_RIGHT then .ok (e, cur2+1)
              else .error .expectedClosingParen
          | t => .error (.unexpectedToken t token.value)
    | .memberTail object cur =>
      -- Entered only from exprLoop with a DOT or BRACKET_LEFT at `cur`.
      match tokens.get? cur with
      | none => .error .unexpectedEndOfInput
      | some token =>
        if token.type == .DOT then
          match tokens.get? (cur+1) with
          | some t2 =>
            if t2.type == .IDENTIFIER then
              .ok (.member object (.identifier t2.value) false, cur+2)
            else .error .expectedPropertyName
          | none => .error .expectedPropertyName
        else
          match parseStep tokens fuel (.expr (cur+1) 0) with
          | .error e => .error e
          | .ok (prop, cur2) =>
            if matchesType tokens cur2 .BRACKET_RIGHT then
              .ok (.member object prop true, cur2+1)
            else .error .expectedClosingBracket
    | .callStart cur =>
      match tokens.get? cur with
      | none => .error .unexpectedEndOfInput
      | some ftoken =>
        if matchesType tokens (cur+1) .PAREN_LEFT then
          parseStep tokens fuel (.callArgs ftoken.value [] (cur+2))
        else .error .expectedOpeningParen
    | .callArgs name acc cur =>
      if matchesType tokens cur .PAREN_RIGHT then
        .ok (.call name (toExprList acc.reverse), cur+1)
      else
        match tokens.get? cur with
        | none => .error .expectedClosingParen
        | some _ =>
          if acc.isEmpty then
            match parseStep tokens fuel (.expr cur 0) with
            | .error e => .error e
            | .ok (arg, cur2) => parseStep tokens fuel (.callArgs name [arg] cur2)
          else if matchesType tokens cur .COMMA then
            match parseStep tokens fuel (.expr (cur+1) 0) with
            | .error e => .error e
            | .ok (arg, cur2) => parseStep tokens fuel (.callArgs name (arg :: acc) cur2)
          else .error .expectedCommaBetweenArgs

/-- Ample fuel: the recursion/loop steps of the source parser are
bounded well below this on any token list. -/
def parseFuel (tokens : List Token) : Nat :=
  (tokens.length + 2) * (tokens.length + 2) * 4

/-- The root call `parseExpression()` of `parse`. -/
def parseExpressionTop (tokens : List Token) : Except ParseErr (Expression × Nat) :=
  parseStep tokens (parseFuel tokens) (.expr 0 0)

/-- `parse(tokens)`: wraps the root expression in a `Program`.  Note
that the final position returned by `parseExpression` is discarded
without an end-of-input check, exactly as in the source. -/
def parse (tokens : List Token) : Except ParseErr Program :=
  match parseExpressionTop tokens with
  | .error e => .error e
  | .ok (expression, _) => .ok ⟨expression⟩

/-! ## Interpreter (`src/interpreter.ts`, `createInterpreterState` /
`evaluateAst`) -/

/-- Runtime failures.  The first six mirror the `ExpressionError`
message templates thrown by the evaluator; `hostError` stands for an
error raised by a registered host function. -/
inductive EvalErr where
  | undefinedVariable (name : String)
  | undefinedFunction (name : String)
  | nullPropertyAccess
  | unknownOperator (op : String)
  | invalidUnaryOperand
  | unsupportedPostfixOp (op : String)
  | hostError (msg : String)
  deriving DecidableEq, Repr

/-- The variable context: string keys to values, first match winning
(the order produced by object spread is modelled by `mergeContext`). -/
abbrev Context : Type := List (String × Value)

abbrev FnImpl : Type := List Value → Except EvalErr Value

/-- The function registry. -/
abbrev Functions : Type := List (String × FnImpl)

/-- `createInterpreterState`. -/
structure InterpreterState where
  context : Context
  functions : Functions

def ctxLookup (ctx : Context) (name : String) : Option Value :=
  List.lookup name ctx

def fnLookup (fns : Functions) (name : String) : Option FnImpl :=
  List.lookup name fns

/-- `{ ...base, ...override }`: the override's bindings shadow the
base's. -/
def mergeContext (base override : Context) : Context := override ++ base

/-- The property key used by the non-computed branch of
`evaluateMemberExpression`: `(node.property as Identifier).name`.  On
any non-identifier node (unreachable for parser output) the host cast
reads `undefined`, which the later property lookup stringifies to
`"undefined"`. -/
def propertyName (p : Expression) : String :=
  match p with
  | .identifier n => n
  | _ => "undefined"

/-- A digit string in canonical form (what JavaScript treats as an
array/string index key). -/
def canonIndex (k : String) : Option Nat :=
  match k.toList with
  | [] => none
  | c :: rest =>
    if (c :: rest).all Char.isDigit && (rest.isEmpty || !(c == '0')) then
      some (digitsToNat (c :: rest))
    else none

/-- The host indexing `(object as any)[property]` on a non-null base:
the key is stringified (`ToPropertyKey`); objects look up own
properties; strings expose `length` and single-character indexing;
numbers and booleans have no own properties in this model (inherited
prototype methods are not modelled, and the blacklist bars the
dangerous inherited names from source text anyway).  A missing key
yields `undefined`, never an error. -/
def getMember (o : Value) (key : Value) : Value :=
  let k := jsToString key
  match o with
  | .obj fields => (List.lookup k fields).getD .undefined
  | .str s =>
    if k == "length" then .num (qInt s.length)
    else
      match canonIndex k with
      | some i =>
        match s.toList.get? i with
        | some c => .str (String.mk [c])
        | none => .undefined
      | none => .undefined
  | _ => .undefined

/-- `evaluateBinaryExpression`'s operator dispatch, applied to the two
already-computed operand values.  `&&`/`||` combine the values with
JavaScript's value-returning logical operators — both operands have
already been evaluated at this point.  `+` is the host's `+` (see
`jsAdd`); the other arithmetic operators coerce with `ToNumber`. -/
def applyBinary (op : String) (l r : Value) : Except EvalErr Value :=
  match op with
  | "+" => .ok (jsAdd l r)
  | "-" => .ok (numSub (toNumberX l) (toNumberX r))
  | "*" => .ok (numMul (toNumberX l) (toNumberX r))
  | "/" => .ok (numDiv (toNumberX l) (toNumberX r))
  | "%" => .ok (numMod (toNumberX l) (toNumberX r))
  | "===" => .ok (.bool (jsStrictEq l r))
  | "!==" => .ok (.bool (!jsStrictEq l r))
  | ">" => .ok (.bool ((jsLessCore r l).getD false))
  | ">=" => .ok (.bool (match jsLessCore l r with
      | none => false
      | some b => !b))
  | "<" => .ok (.bool ((jsLessCore l r).getD false))
  | "<=" => .ok (.bool (match jsLessCore r l with
      | none => false
      | some b => !b))
  | "&&" => .ok (if truthy l then r else l)
  | "||" => .ok (if truthy l then l else r)
  | _ => .error (.unknownOperator op)

/-- `evaluateUnaryExpression`, applied to the computed operand.  The
`typeof argument !== "number"` guard admits `NaN` and the infinities
(they are numbers for `typeof`). -/
def applyUnary (op : String) (a : Value) (pfx : Bool) : Except EvalErr Value :=
  if pfx then
    match op with
    | "!" => .ok (.bool (!truthy a))
    | "-" =>
      match a with
      | .num q => .ok (.num (qNeg q))
      | .nan => .ok .nan
      | .inf neg => .ok (.inf (!neg))
      | _ => .error .invalidUnaryOperand
    | _ => .error (.unknownOperator op)
  else .error (.unsupportedPostfixOp op)

mutual
/-- `evaluateNode`: one case per node kind.  Binary operands are both
evaluated before the operator is applied (so `&&`/`||` are eager);
conditional tests select exactly one branch. -/
def evalNode (st : InterpreterState) : Expression → Except EvalErr Value
  | .literal v _ => .ok v
  | .identifier name =>
    match ctxLookup st.context name with
    | some v => .ok v
    | none => .error (.undefinedVariable name)
  | .member object property computed =>
    match evalNode st object with
    | .error e => .error e
    | .ok o =>
      match o with
      | .null => .error .nullPropertyAccess
      | .undefined => .error .nullPropertyAccess
      | _ =>
        if computed then
          match evalNode st property with
          | .error e => .error e
          | .ok k => .ok (getMember o k)
        else .ok (getMember o (.str (propertyName property)))
  | .call callee args =>
    match fnLookup st.functions callee with
    | none => .error (.undefinedFunction callee)
    | some f =>
      match evalArgs st args with
      | .error e => .error e
      | .ok vs => f vs
  | .binary op left right =>
    match evalNode st left with
    | .error e => .error e
    | .ok l =>
      match evalNode st right with
      | .error e => .error e
      | .ok r => applyBinary op l r
  | .unary op argument pfx =>
    match evalNode st argument with
    | .error e => .error e
    | .ok a => applyUnary op a pfx
  | .conditional test consequent alternate =>
    match evalNode st test with
    | .error e => .error e
    | .ok t => if truthy t then evalNode st consequent else evalNode st alternate

/-- The argument list evaluation `node.arguments.map(evaluateNode)`:
left to right, eagerly, first error aborting. -/
def evalArgs (st : InterpreterState) : ExprList → Except EvalErr (List Value)
  | .nil => .ok []
  | .cons e es =>
    match evalNode st e with
    | .error er => .error er
    | .ok v =>
      match evalArgs st es with
      | .error er => .error er
      | .ok vs => .ok (v :: vs)
end

/-- `evaluateAst(ast, state, context?)`: when a per-call context is
supplied, evaluation runs in a fresh state whose context is the spread
merge; the captured `state` itself is never modified. -/
def evaluateAst (ast : Program) (state : InterpreterState)
    (ctx? : Option Context) : Except EvalErr Value :=
  let st :=
    match ctx? with
    | some c => { state with context := mergeContext state.context c }
    | none => state
  evalNode st ast.body

/-! ## Public pipeline (`src/index.ts`) -/

/-- Policy failures raised by `validateExpression`. -/
inductive ValidateErr where
  | emptyExpression
  | blacklistedKeywords
  deriving DecidableEq, Repr

/-- One error type for the whole pipeline (each stage's
`ExpressionError`s, tagged by stage). -/
inductive TopError where
  | validation (e : ValidateErr)
  | lex (e : TokErr)
  | parsing (e : ParseErr)
  | eval (e : EvalErr)
  deriving DecidableEq, Repr

/-- The default blacklist of `src/index.ts`. -/
def blackListNames : List String :=
  ["constructor", "__proto__", "prototype", "this", "window", "global"]

/-- The maximal word-character runs of a string.  The source tests the
raw text with the regular expression
`\b(constructor\b|\b__proto__\b|...)\b`; since every blacklisted name
consists solely of word characters, that regex matches exactly when
some maximal word run equals one of the names. -/
def wordRunsAux : List Char → List Char → List String
  | [], acc => if acc.isEmpty then [] else [String.mk acc.reverse]
  | c :: cs, acc =>
    if isIdentChar c then wordRunsAux cs (c :: acc)
    else if acc.isEmpty then wordRunsAux cs []
    else String.mk acc.reverse :: wordRunsAux cs []

def wordRuns (s : String) : List String := wordRunsAux s.toList []

/-- `validateExpression`: empty/whitespace-only input is rejected
first, then the blacklist scan runs on the raw source text — before
any tokenization or parsing. -/
def validateExpression (expr : String) : Except ValidateErr Unit :=
  if expr.toList.all isJsWhitespace then .error .emptyExpression
  else if (wordRuns expr).any (fun r => blackListNames.contains r) then
    .error .blacklistedKeywords
  else .ok ()

/-- `compile(expression)`: validate, tokenize and parse once, then
return the reusable evaluator closure.  The closure captures an
interpreter state with an empty base context and the registry `fns`
(the module-level registry is a parameter here); each call merges its
own per-call context and never stores it. -/
def compile (expr : String) (fns : Functions) :
    Except TopError (Context → Except EvalErr Value) :=
  match validateExpression expr with
  | .error e => .error (.validation e)
  | .ok _ =>
    match tokenize expr with
    | .error e => .error (.lex e)
    | .ok toks =>
      match parse toks with
      | .error e => .error (.parsing e)
      | .ok ast => .ok (fun ctx => evaluateAst ast ⟨[], fns⟩ (some ctx))

/-- `evaluate(expression, context)`: validate, compile, run once. -/
def evaluate (expr : String) (ctx : Context) (fns : Functions) :
    Except TopError Value :=
  match validateExpression expr with
  | .error e => .error (.validation e)
  | .ok _ =>
    match compile expr fns with
    | .error e => .error e
    | .ok f =>
      match f ctx with
      | .error e => .error (.eval e)
      | .ok v => .ok v

/-- The compiled closure applied once; used to express properties of
repeated evaluation. -/
def runCompiled (ast : Program) (fns : Functions) (ctx : Context) :
    Except EvalErr Value :=
  evaluateAst ast ⟨[], fns⟩ (some ctx)

/-- A sequence of evaluations of one compiled AST: the closure state
(`ast` and the captured interpreter state) is the same for every call,
as the source closure never reassigns it. -/
def runSequence (ast : Program) (fns : Functions) (ctxs : List Context) :
    List (Except EvalErr Value) :=
  ctxs.map (runCompiled ast fns)

example : evaluate "2 + 3 * 4" [] [] = .ok (.num ⟨14, 1⟩) := rfl
example : evaluate "(2 + 3) * 4" [] [] = .ok (.num ⟨20, 1⟩) := rfl
example : evaluate "a-5" [("a", .num ⟨10, 1⟩)] [] = .ok (.num ⟨10, 1⟩) := rfl
example : evaluate "a - -5" [("a", .num ⟨10, 1⟩)] [] = .ok (.num ⟨15, 1⟩) := rfl
example : evaluate "1 + null" [] [] = .ok (.num ⟨1, 1⟩) := rfl
example : evaluate "x.y" [("x", .null)] [] = .error (.eval .nullPropertyAccess) := rfl
example : evaluate "x.y" [("x", .obj [])] [] = .ok .undefined := rfl
example : evaluate "missingVar" [] [] =
    .error (.eval (.undefinedVariable "missingVar")) := rfl

/-! ## Claims -/

/-- A registered function that raises whenever it is called, as in the
short-circuit test of the specification. -/
def boomFunctions : Functions := [("boom", fun _ => .error (.hostError "boom"))]

/-- C1 (counterexample): with a registered function `boom()` that
raises if called, `evaluate("false && @boom()")` does *not* return
`false` without raising — the interpreter evaluates both operands of
`&&`/`||` eagerly, so `boom`'s error propagates; likewise for
`evaluate("true || @boom()")`. -/
theorem and_or_short_circuit_counterexample :
    evaluate "false && @boom()" [] boomFunctions =
      .error (.eval (.hostError "boom")) ∧
    evaluate "true || @boom()" [] boomFunctions =
      .error (.eval (.hostError "boom")) :=
  ⟨rfl, rfl⟩

/-- C1 (amended): for `L && R` and `L || R` the interpreter evaluates
both operands eagerly and only then combines the *values* with the
host's truthiness-based logical operators (`&&` yields the left value
when it is falsy, otherwise the right value; dually for `||`).  The
value result agrees with short-circuit semantics, but an error raised
by the right operand always propagates, even when the left operand
already determines the result. -/
theorem and_or_eager_evaluation (st : InterpreterState) (l r : Expression)
    (lv : Value) (h : evalNode st l = .ok lv) :
    evalNode st (.binary "&&" l r) =
      (evalNode st r).map (fun rv => if truthy lv then rv else lv) ∧
    evalNode st (.binary "||" l r) =
      (evalNode st r).map (fun rv => if truthy lv then lv else rv) := by
  constructor <;>
  · simp only [evalNode]
    rw [h]
    cases hr : evalNode st r <;> rfl

/-- C1 (witness): the eager-evaluation characterisation at the concrete
node `false && x`. -/
theorem and_or_eager_evaluation_witness :
    evalNode ⟨[], []⟩ (.binary "&&" (.literal (.bool false) "false") (.identifier "x")) =
      (evalNode ⟨[], []⟩ (.identifier "x")).map
        (fun rv => if truthy (Value.bool false) then rv else Value.bool false) ∧
    evalNode ⟨[], []⟩ (.binary "||" (.literal (.bool false) "false") (.identifier "x")) =
      (evalNode ⟨[], []⟩ (.identifier "x")).map
        (fun rv => if truthy (Value.bool false) then Value.bool false else rv) :=
  and_or_eager_evaluation ⟨[], []⟩ (.literal (.bool false) "false")
    (.identifier "x") (.bool false) rfl

/-- C2 (counterexample): `1 + null` evaluates to the number `1`, not to
the string `"1null"` — the evaluator used by the public pipeline
applies the host `+`, which coerces `null` to `0` instead of
concatenating string forms. -/
theorem plus_null_counterexample :
    evaluate "1 + null" [] [] = .ok (.num ⟨1, 1⟩) ∧
    evaluate "1 + null" [] [] ≠ .ok (.str "1null") := by
  refine ⟨rfl, ?_⟩
  intro h
  rw [show evaluate "1 + null" [] [] = .ok (.num ⟨1, 1⟩) from rfl] at h
  exact Value.noConfusion (Except.ok.inj h)

/-- C2 (amended): a BinaryExpression with operator `+` applies the
host's `+` to the operand values: when both are numbers the result is
their numeric sum; when at least one side is a string the result is
the concatenation of the two string forms; in the remaining cases both
sides are coerced to numbers and added (so `1 + null` is the number
`1`). -/
theorem plus_host_semantics :
    (∀ (st : InterpreterState) (l r : Expression) (lv rv : Value),
      evalNode st l = .ok lv → evalNode st r = .ok rv →
      evalNode st (.binary "+" l r) = .ok (jsAdd lv rv)) ∧
    (∀ a b : JSNum, jsAdd (.num a) (.num b) = .num (qAdd a b)) ∧
    (∀ (s : String) (v : Value), jsAdd (.str s) v = .str (s ++ jsToString v)) ∧
    (∀ (s : String) (v : Value), jsAdd v (.str s) = .str (jsToString v ++ s)) ∧
    jsAdd (.num ⟨1, 1⟩) .null = .num ⟨1, 1⟩ := by
  refine ⟨?_, ?_, ?_, ?_, rfl⟩
  · intro st l r lv rv h1 h2
    simp only [evalNode]
    rw [h1, h2]
    rfl
  · intro a b; rfl
  · intro s v; cases v <;> rfl
  · intro s v; cases v <;> rfl

/-- C2 (witness): the host-`+` characterisation at the concrete node
`1 + null`. -/
theorem plus_host_semantics_witness :
    evalNode ⟨[], []⟩ (.binary "+" (.literal (.num ⟨1, 1⟩) "1") (.literal .null "null")) =
      .ok (jsAdd (.num ⟨1, 1⟩) .null) :=
  plus_host_semantics.1 ⟨[], []⟩ (.literal (.num ⟨1, 1⟩) "1")
    (.literal .null "null") (.num ⟨1, 1⟩) .null rfl rfl

/-- C3: the whitespace around a binary minus changes the parsed
meaning.  With `a = 10`, the spaced `"a - 5"` evaluates to `5` and
`"a - -5"` to `15`, but the unspaced `"a-5"` evaluates to `10`: the
tokenizer folds `-5` into a single NUMBER token, and the parser then
stops after `a`, silently dropping the subtraction, so `"a-5"` does
*not* evaluate to `5`. -/
theorem minus_adjacent_digit_divergence :
    evaluate "a-5" [("a", .num ⟨10, 1⟩)] [] = .ok (.num ⟨10, 1⟩) ∧
    evaluate "a - 5" [("a", .num ⟨10, 1⟩)] [] = .ok (.num ⟨5, 1⟩) ∧
    evaluate "a - -5" [("a", .num ⟨10, 1⟩)] [] = .ok (.num ⟨15, 1⟩) ∧
    tokenize "a-5" = .ok [⟨.IDENTIFIER, "a"⟩, ⟨.NUMBER, "-5"⟩] ∧
    evaluate "a-5" [("a", .num ⟨10, 1⟩)] [] ≠ .ok (.num ⟨5, 1⟩) := by
  refine ⟨rfl, rfl, rfl, rfl, ?_⟩
  intro h
  rw [show evaluate "a-5" [("a", .num ⟨10, 1⟩)] [] = .ok (.num ⟨10, 1⟩) from rfl] at h
  exact absurd (congrArg JSNum.n (Value.num.inj (Except.ok.inj h))) (by decide)

/-- C4 (counterexample): the default blacklist does not contain `eval`
or `Function`: both source strings pass validation (reaching evaluation,
where they fail only as undefined variables), so the claim that every
source containing them is rejected pre-parse by the policy check is
false. -/
theorem blacklist_eval_function_not_rejected :
    validateExpression "eval" = .ok () ∧
    validateExpression "Function" = .ok () ∧
    evaluate "eval" [] [] = .error (.eval (.undefinedVariable "eval")) ∧
    evaluate "Function" [] [] = .error (.eval (.undefinedVariable "Function")) :=
  ⟨rfl, rfl, rfl, rfl⟩

theorem ws_not_ident (c : Char) (h : isJsWhitespace c = true) :
    isIdentChar c = false := by
  simp only [isJsWhitespace, Bool.or_eq_true, beq_iff_eq] at h
  rcases h with ((((h | h) | h) | h) | h) | h <;> subst h <;> rfl

theorem wordRunsAux_all_ws (cs : List Char) (h : cs.all isJsWhitespace = true) :
    wordRunsAux cs [] = [] := by
  induction cs with
  | nil => rfl
  | cons c rest ih =>
    simp only [List.all_cons, Bool.and_eq_true] at h
    simp only [wordRunsAux, ws_not_ident c h.1]
    simpa using ih h.2

theorem validate_blacklisted (s : String)
    (hany : (wordRuns s).any (fun r => blackListNames.contains r) = true) :
    validateExpression s = .error .blacklistedKeywords := by
  have hws : s.toList.all isJsWhitespace = false := by
    by_contra hcon
    rw [Bool.not_eq_false] at hcon
    rw [wordRuns, wordRunsAux_all_ws _ hcon] at hany
    simp at hany
  simp only [validateExpression, hws, Bool.false_eq_true, if_false, hany, if_true]

/-- C4 (amended): with the default configuration, `evaluate` and
`compile` reject — before tokenization and parsing — every source
string containing one of the six default blacklisted names
(`constructor`, `__proto__`, `prototype`, `this`, `window`, `global`)
as a whole word, including occurrences inside string literals, with the
blacklist policy error; sources containing none of them as a whole
word are never rejected by this check.  (Whole-word containment is
`wordRuns`: the maximal word-character runs of the raw text, which is
what the source's `\b`-anchored regular expression matches.) -/
theorem blacklist_default_names_enforced :
    (∀ (s : String) (ctx : Context) (fns : Functions),
      (wordRuns s).any (fun r => blackListNames.contains r) = true →
      evaluate s ctx fns = .error (.validation .blacklistedKeywords)) ∧
    (∀ s : String,
      (wordRuns s).any (fun r => blackListNames.contains r) = false →
      validateExpression s ≠ .error .blacklistedKeywords) ∧
    (∀ (s : String) (ctx : Context) (fns : Functions) (e : ValidateErr),
      validateExpression s = .error e →
      evaluate s ctx fns = .error (.validation e) ∧
      compile s fns = .error (.validation e)) ∧
    evaluate "'this'" [] [] = .error (.validation .blacklistedKeywords) ∧
    evaluate "this #" [] [] = .error (.validation .blacklistedKeywords) := by
  refine ⟨?_, ?_, ?_, rfl, rfl⟩
  · intro s ctx fns hany
    simp only [evaluate, validate_blacklisted s hany]
  · intro s h hcon
    by_cases hws : s.toList.all isJsWhitespace = true
    · have he : validateExpression s = .error .emptyExpression := by
        unfold validateExpression
        rw [if_pos hws]
      rw [he] at hcon
      exact ValidateErr.noConfusion (Except.error.inj hcon)
    · have ho : validateExpression s = .ok () := by
        unfold validateExpression
        rw [if_neg hws, if_neg (by rw [h]; exact Bool.false_ne_true)]
      rw [ho] at hcon
      exact Except.noConfusion hcon
  · intro s ctx fns e h
    exact ⟨by simp only [evaluate, h], by simp only [compile, h]⟩

/-- C4 (witness): the enforcement direction at the concrete source
`"constructor"`. -/
theorem blacklist_default_names_enforced_witness :
    evaluate "constructor" [] [] = .error (.validation .blacklistedKeywords) :=
  blacklist_default_names_enforced.1 "constructor" [] [] rfl

/-- C5: evaluating an Identifier fails with the undefined-variable
error exactly when the name is absent from the context; when the name
is bound, evaluation returns the bound value — even when that value is
`null` or `undefined`. -/
theorem identifier_strict_lookup (st : InterpreterState) (n : String) :
    (evalNode st (.identifier n) = .error (.undefinedVariable n) ↔
      ctxLookup st.context n = none) ∧
    (∀ v, ctxLookup st.context n = some v → evalNode st (.identifier n) = .ok v) := by
  cases h : ctxLookup st.context n <;> simp [evalNode, h]

/-- C5 (witness): a binding to `null` is returned as `null`, with no
fallback. -/
theorem identifier_strict_lookup_witness :
    evalNode ⟨[("x", Value.null)], []⟩ (.identifier "x") = .ok Value.null :=
  (identifier_strict_lookup ⟨[("x", Value.null)], []⟩ "x").2 Value.null rfl

/-- C6: member access fails with the null-property-access error exactly
when the base object evaluates to `null`/`undefined`; on any other base
the (non-computed) access succeeds and returns the indexed value, which
is the absent marker `undefined` when the key is missing — concretely,
`x.y` fails for `x = null` but returns `undefined` for `x = {}`. -/
theorem member_access_null_base :
    (∀ (st : InterpreterState) (o p : Expression) (c : Bool) (v : Value),
      evalNode st o = .ok v → (v = .null ∨ v = .undefined) →
      evalNode st (.member o p c) = .error .nullPropertyAccess) ∧
    (∀ (st : InterpreterState) (o : Expression) (name : String) (v : Value),
      evalNode st o = .ok v → v ≠ .null → v ≠ .undefined →
      evalNode st (.member o (.identifier name) false) = .ok (getMember v (.str name))) ∧
    evaluate "x.y" [("x", .null)] [] = .error (.eval .nullPropertyAccess) ∧
    evaluate "x.y" [("x", .obj [])] [] = .ok .undefined ∧
    getMember (.obj []) (.str "y") = .undefined := by
  refine ⟨?_, ?_, rfl, rfl, rfl⟩
  · intro st o p c v h hv
    simp only [evalNode]
    rw [h]
    rcases hv with rfl | rfl <;> rfl
  · intro st o name v h h1 h2
    simp only [evalNode]
    rw [h]
    cases v
    case null => exact absurd rfl h1
    case undefined => exact absurd rfl h2
    all_goals rfl

/-- C6 (witness): the failure direction at the concrete node `x.y` with
`x` bound to `null`. -/
theorem member_access_null_base_witness :
    evalNode ⟨[("x", Value.null)], []⟩
      (.member (.identifier "x") (.identifier "y") false) =
      .error .nullPropertyAccess :=
  member_access_null_base.1 ⟨[("x", Value.null)], []⟩ (.identifier "x")
    (.identifier "y") false Value.null rfl (Or.inl rfl)

/-- C7: a ConditionalExpression evaluates its test, coerces it to
boolean truthiness, and then evaluates exactly one branch: when the
test is truthy the result is that of the consequent and is entirely
independent of the alternate (and dually when falsy), so an
error-raising expression in the untaken branch never causes evaluation
to fail. -/
theorem conditional_evaluates_one_branch :
    (∀ (st : InterpreterState) (t c a₁ a₂ : Expression) (v : Value),
      evalNode st t = .ok v → truthy v = true →
      evalNode st (.conditional t c a₁) = evalNode st c ∧
      evalNode st (.conditional t c a₁) = evalNode st (.conditional t c a₂)) ∧
    (∀ (st : InterpreterState) (t c₁ c₂ a : Expression) (v : Value),
      evalNode st t = .ok v → truthy v = false →
      evalNode st (.conditional t c₁ a) = evalNode st a ∧
      evalNode st (.conditional t c₁ a) = evalNode st (.conditional t c₂ a)) := by
  constructor
  · intro st t c a₁ a₂ v h hv
    constructor <;>
    · simp only [evalNode]
      rw [h]
      simp [hv]
  · intro st t c₁ c₂ a v h hv
    constructor <;>
    · simp only [evalNode]
      rw [h]
      simp [hv]

/-- C7 (witness): with a true test, the conditional node equals its
consequent, whatever stands in the alternate. -/
theorem conditional_evaluates_one_branch_witness :
    evalNode ⟨[], []⟩ (.conditional (.literal (.bool true) "true")
        (.literal (.num ⟨1, 1⟩) "1") (.identifier "x")) =
      evalNode ⟨[], []⟩ (.literal (.num ⟨1, 1⟩) "1") ∧
    evalNode ⟨[], []⟩ (.conditional (.literal (.bool true) "true")
        (.literal (.num ⟨1, 1⟩) "1") (.identifier "x")) =
      evalNode ⟨[], []⟩ (.conditional (.literal (.bool true) "true")
        (.literal (.num ⟨1, 1⟩) "1") (.identifier "y")) :=
  conditional_evaluates_one_branch.1 ⟨[], []⟩ (.literal (.bool true) "true")
    (.literal (.num ⟨1, 1⟩) "1") (.identifier "x") (.identifier "y")
    (.bool true) rfl rfl

/-- C8: the parser's fixed precedence table is
ternary(1) < or(2) < and(3) < equality(4) < relational(5) <
additive(6) < multiplicative(7) < not(8) < member access(9), and
parenthesisation overrides it: `2 + 3 * 4` evaluates to `14` and
`(2 + 3) * 4` to `20`. -/
theorem precedence_table_and_examples :
    getOperatorPrecedence ⟨.QUESTION, "?"⟩ = 1 ∧
    getOperatorPrecedence ⟨.OPERATOR, "||"⟩ = 2 ∧
    getOperatorPrecedence ⟨.OPERATOR, "&&"⟩ = 3 ∧
    getOperatorPrecedence ⟨.OPERATOR, "==="⟩ = 4 ∧
    getOperatorPrecedence ⟨.OPERATOR, "!=="⟩ = 4 ∧
    getOperatorPrecedence ⟨.OPERATOR, ">"⟩ = 5 ∧
    getOperatorPrecedence ⟨.OPERATOR, ">="⟩ = 5 ∧
    getOperatorPrecedence ⟨.OPERATOR, "<"⟩ = 5 ∧
    getOperatorPrecedence ⟨.OPERATOR, "<="⟩ = 5 ∧
    getOperatorPrecedence ⟨.OPERATOR, "+"⟩ = 6 ∧
    getOperatorPrecedence ⟨.OPERATOR, "-"⟩ = 6 ∧
    getOperatorPrecedence ⟨.OPERATOR, "*"⟩ = 7 ∧
    getOperatorPrecedence ⟨.OPERATOR, "/"⟩ = 7 ∧
    getOperatorPrecedence ⟨.OPERATOR, "%"⟩ = 7 ∧
    getOperatorPrecedence ⟨.OPERATOR, "!"⟩ = 8 ∧
    getOperatorPrecedence ⟨.DOT, "."⟩ = 9 ∧
    getOperatorPrecedence ⟨.BRACKET_LEFT, "["⟩ = 9 ∧
    evaluate "2 + 3 * 4" [] [] = .ok (.num ⟨14, 1⟩) ∧
    evaluate "(2 + 3) * 4" [] [] = .ok (.num ⟨20, 1⟩) :=
  ⟨rfl, rfl, rfl, rfl, rfl, rfl, rfl, rfl, rfl, rfl, rfl, rfl, rfl, rfl, rfl,
   rfl, rfl, rfl, rfl⟩

/-- C9: the compiled evaluator is a pure function of the per-call
context: the captured interpreter state (empty base context plus the
registry) is merged with a fresh copy for every call and never stores
the caller's bindings, so evaluating with `c₁` and then with `c₂`
produces for the second call exactly the result of evaluating with
`c₂` alone. -/
theorem context_not_retained (ast : Program) (fns : Functions) (c₁ c₂ : Context) :
    runSequence ast fns [c₁, c₂] =
      [runCompiled ast fns c₁, runCompiled ast fns c₂] ∧
    (runSequence ast fns [c₁, c₂]).getLast? = some (runCompiled ast fns c₂) ∧
    runCompiled ast fns c₂ = evalNode ⟨mergeContext [] c₂, fns⟩ ast.body :=
  ⟨rfl, rfl, rfl⟩

/-- C10: `parse` wraps whatever leading expression `parseExpression`
recognises and performs no end-of-input check, silently ignoring all
remaining tokens: whenever the root `parseExpression` succeeds at any
final position, `parse` succeeds with that expression; concretely the
token sequences of `"1 2"` and `"a-5"` parse without any error into
just the first literal/identifier. -/
theorem parse_ignores_trailing_tokens :
    (∀ (ts : List Token) (e : Expression) (k : Nat),
      parseExpressionTop ts = .ok (e, k) → parse ts = .ok ⟨e⟩) ∧
    tokenize "1 2" = .ok [⟨.NUMBER, "1"⟩, ⟨.NUMBER, "2"⟩] ∧
    parse [⟨.NUMBER, "1"⟩, ⟨.NUMBER, "2"⟩] = .ok ⟨.literal (.num ⟨1, 1⟩) "1"⟩ ∧
    tokenize "a-5" = .ok [⟨.IDENTIFIER, "a"⟩, ⟨.NUMBER, "-5"⟩] ∧
    parse [⟨.IDENTIFIER, "a"⟩, ⟨.NUMBER, "-5"⟩] = .ok ⟨.identifier "a"⟩ := by
  refine ⟨?_, rfl, rfl, rfl, rfl⟩
  intro ts e k h
  simp only [parse, h]

/-- C10 (witness): the no-end-check direction at the concrete token
sequence of `"1 2"`. -/
theorem parse_ignores_trailing_tokens_witness :
    parse [⟨.NUMBER, "1"⟩, ⟨.NUMBER, "2"⟩] = .ok ⟨.literal (.num ⟨1, 1⟩) "1"⟩ :=
  parse_ignores_trailing_tokens.1 [⟨.NUMBER, "1"⟩, ⟨.NUMBER, "2"⟩]
    (.literal (.num ⟨1, 1⟩) "1") 1 rfl
